import Mathlib

/-!
Shallow embedding of the synchronization engine of `egdata-client`
(`src/src-tauri/src/lib.rs`): the shared registry of discovered games, the
deduplicated upload pipeline, the persisted dedup set, the scanner, the two
periodic scheduler loops, and the lock-failure discipline of each operation.

External effects (file reads, JSON parsing of file bytes, the HTTP send, and
mutex acquisition) are embedded as explicit environment values recording the
outcome the runtime would deliver; every branch taken on those outcomes is
translated directly from the Rust source.
-/

namespace EGData

/-- `GameMetadata` from `lib.rs` (only shape matters for the engine). -/
structure GameMetadata where
  id : String
  title : String
  description : String
  developer : Option String
  developerId : Option String
  deriving Repr, DecidableEq

/-- `GameInfo` from `lib.rs`: one record of the registry, produced by the
scanner from a manifest descriptor file. -/
structure GameInfo where
  displayName : String
  appName : String
  installLocation : String
  installSize : Nat
  version : String
  catalogNamespace : String
  catalogItemId : String
  installationGuid : String
  manifestHash : String
  metadata : Option GameMetadata
  deriving Repr, DecidableEq

/-- `UploadStatus` from `lib.rs`. -/
structure UploadStatus where
  status : String
  message : Option String
  manifestHash : Option String
  deriving Repr, DecidableEq

/-- `Settings` from `lib.rs`.  `uploadInterval` is measured in hours
(`// in hours`), `scanIntervalMinutes` in minutes. -/
structure Settings where
  concurrency : Nat
  uploadSpeedLimit : Nat
  allowedEnvironments : List String
  uploadInterval : Nat
  scanIntervalMinutes : Nat
  deriving Repr, DecidableEq

/-- Outcome of `Mutex::lock()`: a guard, or a `PoisonError` (whose display
text the source interpolates into its error messages). -/
inductive LockResult (α : Type) where
  | ok (a : α)
  | poisoned (msg : String)
  deriving Repr, DecidableEq

/-- Membership test used by `HashSet<String>::contains`. -/
def hashSetContains (s : List String) (h : String) : Bool :=
  s.contains h

/-- `HashSet<String>::insert`: adds the hash when absent, no-op otherwise. -/
def hashSetInsert (s : List String) (h : String) : List String :=
  if s.contains h then s else h :: s

/-- The JSON values relevant to the persisted dedup file: `serde_json`
serializes a `HashSet<String>` as an array of strings, and refuses anything
else when deserializing one. -/
inductive JsonVal where
  | str (s : String)
  | arrOf (xs : List JsonVal)
  | otherVal
  deriving Repr

/-- Serialization of the dedup set performed by
`serde_json::to_string_pretty(set)`: a JSON array of strings. -/
def serializeStringSet (s : List String) : JsonVal :=
  .arrOf (s.map .str)

/-- Element-wise reading of a JSON array as a list of strings, as
`serde_json::from_reader::<_, HashSet<String>>` does: any non-string element
fails the whole parse. -/
def parseStrings : List JsonVal → Option (List String)
  | [] => some []
  | .str s :: rest => (parseStrings rest).map (s :: ·)
  | .arrOf _ :: _ => none
  | .otherVal :: _ => none

/-- Parsing the persisted dedup file content back into a string set. -/
def parseStringSet : JsonVal → Option (List String)
  | .arrOf xs => parseStrings xs
  | _ => none

/-- `load_uploaded_manifests_from_file` (`lib.rs:235-245`): the stored file
is `none` when absent; a present file that fails to parse as a set of
strings also falls back to the empty set. -/
def load_uploaded_manifests_from_file (file : Option JsonVal) : List String :=
  match file with
  | some j =>
    match parseStringSet j with
    | some s => s
    | none => []
  | none => []

/-- `save_uploaded_manifests_to_file` (`lib.rs:247-259`): serializes the set
and writes it to the dedup file (write errors are discarded by the source;
we model the completed write). -/
def save_uploaded_manifests_to_file (s : List String) : Option JsonVal :=
  some (serializeStringSet s)

/-- Decides whether `needle` begins `hay` (character-wise), the primitive
under `str::contains`. -/
def charsLead : List Char → List Char → Bool
  | [], _ => true
  | _ :: _, [] => false
  | c :: cs, d :: ds => c = d && charsLead cs ds

/-- Decides whether `needle` occurs contiguously inside `hay`. -/
def charsHasSub (needle : List Char) : List Char → Bool
  | [] => needle.isEmpty
  | c :: rest => charsLead needle (c :: rest) || charsHasSub needle rest

/-- `str::contains(needle)` on the response body. -/
def strContainsSub (hay needle : String) : Bool :=
  charsHasSub needle.data hay.data

/-- The exact duplicate-content phrase matched at `lib.rs:664`. -/
def dupContentPhrase : String :=
  "A manifest file with identical content already exists"

/-- An HTTP response as seen by the upload path: `resp.status()` collapsed
to `is_success()`, and `resp.text().await.unwrap_or_default()`. -/
structure HttpResponse where
  isSuccess : Bool
  body : String
  deriving Repr, DecidableEq

/-- The externally determined outcomes of one run of
`upload_manifest_internal` for a given record: the two `fs::read`s, the
`serde_json::from_slice` parse of the `.item` bytes, the
`item_json["ManifestHash"].as_str()` lookup, the state of the
`uploaded_manifests` mutex, and the result of the HTTP send. -/
structure UploadEnv where
  itemRead : Except String Unit
  manifestRead : Except String Unit
  itemParse : Except String Unit
  manifestHashField : Option String
  uploadedLock : LockResult Unit
  sendResult : Except String HttpResponse
  deriving Repr

/-- The dedup state threaded through the upload pipeline: the in-memory
`uploaded_manifests` set and the persisted dedup file. -/
structure DedupState where
  uploadedSet : List String
  file : Option JsonVal
  deriving Repr

/-- Result of one run of `upload_manifest_internal`: the returned
`Result<UploadStatus, String>`, the dedup state afterwards, and whether the
network request was issued. -/
structure UploadOutcome where
  result : Except String UploadStatus
  state : DedupState
  networkCalled : Bool
  deriving Repr

/-- `upload_manifest_internal` (`lib.rs:581-686`), step by step: read the
`.item` and `.manifest` files, parse the descriptor, extract `ManifestHash`,
short-circuit on the dedup set, otherwise POST and classify the response. -/
def upload_manifest_internal (env : UploadEnv) (st : DedupState) :
    UploadOutcome :=
  match env.itemRead with
  | .error e => ⟨.error ("Failed to read .item file: " ++ e), st, false⟩
  | .ok _ =>
  match env.manifestRead with
  | .error e => ⟨.error ("Failed to read .manifest file: " ++ e), st, false⟩
  | .ok _ =>
  match env.itemParse with
  | .error e => ⟨.error ("Failed to parse .item file: " ++ e), st, false⟩
  | .ok _ =>
  match env.manifestHashField with
  | none => ⟨.error "ManifestHash not found in .item file", st, false⟩
  | some h =>
  match env.uploadedLock with
  | .poisoned e => ⟨.error ("Failed to lock uploaded manifests: " ++ e), st, false⟩
  | .ok _ =>
  if hashSetContains st.uploadedSet h then
    ⟨.ok ⟨"already_uploaded", some "Manifest already uploaded", some h⟩,
      st, false⟩
  else
    match env.sendResult with
    | .error e => ⟨.error ("Failed to send upload request: " ++ e), st, true⟩
    | .ok resp =>
      if resp.isSuccess then
        let s' := hashSetInsert st.uploadedSet h
        ⟨.ok ⟨"uploaded", some resp.body, some h⟩,
          ⟨s', save_uploaded_manifests_to_file s'⟩, true⟩
      else if strContainsSub resp.body dupContentPhrase then
        let s' := hashSetInsert st.uploadedSet h
        ⟨.ok ⟨"already_uploaded",
            some "Manifest with identical content already exists", some h⟩,
          ⟨s', save_uploaded_manifests_to_file s'⟩, true⟩
      else
        ⟨.ok ⟨"failed", some resp.body, some h⟩, st, true⟩

/-- The batch driver's conversion of a per-record result into a status
(`lib.rs:865-874`): an `Err` becomes a `failed` status carrying the error
text, with no hash. -/
def statusOfOutcome : Except String UploadStatus → UploadStatus
  | .ok s => s
  | .error e => ⟨"failed", some e, none⟩

/-- The sequential loop of `upload_all_manifests_internal`
(`lib.rs:863-875`) over an already-taken snapshot of the registry, threading
the dedup state. -/
def uploadAllFrom (envOf : GameInfo → UploadEnv) :
    List GameInfo → DedupState → List UploadStatus × DedupState
  | [], st => ([], st)
  | g :: gs, st =>
    let r := upload_manifest_internal (envOf g) st
    let rest := uploadAllFrom envOf gs r.state
    (statusOfOutcome r.result :: rest.1, rest.2)

/-- `upload_all_manifests_internal` (`lib.rs:852-877`): snapshot the
registry under its lock (a poisoned lock aborts the batch with an error),
then drive `upload_manifest_internal` per record. -/
def upload_all_manifests_internal
    (gamesLock : LockResult (List (String × GameInfo)))
    (envOf : GameInfo → UploadEnv) (st : DedupState) :
    Except String (List UploadStatus) × DedupState :=
  match gamesLock with
  | .poisoned e => (.error ("Failed to lock games: " ++ e), st)
  | .ok reg =>
    let r := uploadAllFrom envOf (reg.map Prod.snd) st
    (.ok r.1, r.2)

/-! ### Scanner (`scan_epic_games_with_metadata`, `lib.rs:749-773`) -/

/-- One directory entry as the scan loop sees it: its extension (the result
of `path.extension().and_then(|s| s.to_str())`) and the outcome of
`parse_manifest_file_with_metadata` on it (file read + JSON parse; metadata
fetch failure degrades to `metadata = none` inside a successful record). -/
structure DirEntry where
  fileName : String
  extension : Option String
  parseResult : Except String GameInfo
  deriving Repr

/-- The filesystem as the scanner observes it: whether the platform manifest
directory exists, and what `fs::read_dir` yields — each entry of the
iterator is itself fallible, mirroring `ReadDir`. -/
structure ScanEnv where
  dirExists : Bool
  readDirResult : Except String (List (Except String DirEntry))
  deriving Repr

/-- The error returned at `lib.rs:754` when the manifest directory is
absent. -/
def manifestsDirNotFoundMsg : String :=
  "Epic Games manifests directory not found"

/-- The `for entry in entries` loop of `scan_epic_games_with_metadata`:
an errored directory entry aborts the whole scan (the `?` at
`lib.rs:760`); a candidate `.item` file whose parse fails is logged and
skipped (the second component counts those logged skips); non-`.item`
entries are ignored. -/
def scanEntries : List (Except String DirEntry) →
    Except String (List GameInfo × Nat)
  | [] => .ok ([], 0)
  | .error e :: _ => .error ("Failed to read directory entry: " ++ e)
  | .ok de :: rest =>
    match scanEntries rest with
    | .error e => .error e
    | .ok (gs, skips) =>
      if de.extension == some "item" then
        match de.parseResult with
        | .ok g => .ok (g :: gs, skips)
        | .error _ => .ok (gs, skips + 1)
      else
        .ok (gs, skips)

/-- `scan_epic_games_with_metadata` (`lib.rs:749-773`), returning the
accumulated records together with the number of logged per-file skips. -/
def scan_epic_games_with_metadata (env : ScanEnv) :
    Except String (List GameInfo × Nat) :=
  if env.dirExists then
    match env.readDirResult with
    | .error e => .error ("Failed to read manifests directory: " ++ e)
    | .ok entries => scanEntries entries
  else
    .error manifestsDirNotFoundMsg

/-! ### Registry replacement as a guarded critical section
(`periodic_scan` `lib.rs:914-932`, `scan_games_now` `lib.rs:313-320`) -/

/-- `HashMap::insert` keyed by app name: replaces an existing binding,
appends otherwise. -/
def registryInsert (m : List (String × GameInfo)) (k : String)
    (v : GameInfo) : List (String × GameInfo) :=
  if m.any (fun p => p.1 == k) then
    m.map (fun p => if p.1 == k then (k, v) else p)
  else
    m ++ [(k, v)]

/-- The registry map together with whether its mutex is currently held. -/
structure RegistryState where
  registry : List (String × GameInfo)
  locked : Bool
  deriving Repr, DecidableEq

/-- The atomic micro-operations the registry-replacement code performs:
acquire the games lock, `clear()` the map, `insert` one record, drop the
guard. -/
inductive RegStep where
  | acquire
  | clearMap
  | insertRec (g : GameInfo)
  | release
  deriving Repr, DecidableEq

/-- Effect of one micro-operation on the registry state. -/
def regExecStep (st : RegistryState) : RegStep → RegistryState
  | .acquire => { st with locked := true }
  | .clearMap => { st with registry := [] }
  | .insertRec g =>
    { st with registry := registryInsert st.registry g.appName g }
  | .release => { st with locked := false }

/-- Execution of a sequence of micro-operations. -/
def regExec (st : RegistryState) : List RegStep → RegistryState
  | [] => st
  | s :: rest => regExec (regExecStep st s) rest

/-- The micro-operation sequence of the post-scan registry replacement:
one lock acquisition, a clear, one insert per scanned record, one release —
exactly the critical section at `lib.rs:916-932` and `lib.rs:313-320`. -/
def registryUpdateProgram (games : List GameInfo) : List RegStep :=
  .acquire :: .clearMap :: (games.map .insertRec ++ [.release])

/-- The map a completed replacement leaves behind: every scanned record
inserted, keyed by app name, into an emptied map. -/
def buildRegistry (games : List GameInfo) : List (String × GameInfo) :=
  games.foldl (fun m g => registryInsert m g.appName g) []

/-! ### Scheduler loops (`periodic_scan` `lib.rs:879-912`,
`periodic_upload` `lib.rs:800-850`) -/

/-- A `tokio::time::interval` timer: the absolute time (seconds) of its
next due tick and its period.  `time::interval(p)` is
`interval_at(Instant::now(), p)`, so a fresh interval's first tick is due
immediately; the default missed-tick behavior (`Burst`) keeps later
deadlines anchored to the original schedule. -/
structure TokioInterval where
  deadline : Nat
  period : Nat
  deriving Repr, DecidableEq

/-- `time::interval(period)` called at time `now`: the first tick is due
at `now` itself. -/
def intervalAt (now period : Nat) : TokioInterval :=
  ⟨now, period⟩

/-- `interval.tick().await` started at time `now`: completes at the
deadline, or immediately when the deadline has already passed; the next
deadline stays on the old schedule (`Burst`). -/
def tickAt (now : Nat) (iv : TokioInterval) : Nat × TokioInterval :=
  (max now iv.deadline, ⟨iv.deadline + iv.period, iv.period⟩)

/-- The scan loop's state: the interval the timer was last built at
(`current_interval_minutes`) and the live timer. -/
structure ScanLoopState where
  currentIntervalMinutes : Nat
  timer : TokioInterval
  deriving Repr, DecidableEq

/-- Timer initialization before the scan loop (`lib.rs:885-890`), at time
`now`. -/
def periodicScanInit (now settingsMinutes : Nat) : ScanLoopState :=
  ⟨settingsMinutes, intervalAt now (settingsMinutes * 60)⟩

/-- One iteration of `periodic_scan`'s timing (`lib.rs:892-912`): await
the tick, re-read the interval from settings and, when it differs from the
one the timer was built at, replace the timer with a fresh
`time::interval` at the new value — built at the fire instant, hence due
immediately.  Returns the time the tick completed, the new state, and
whether the timer was rebuilt. -/
def periodicScanIter (now : Nat) (st : ScanLoopState)
    (settingsMinutes : Nat) : Nat × ScanLoopState × Bool :=
  let t := tickAt now st.timer
  if settingsMinutes ≠ st.currentIntervalMinutes then
    (t.1, ⟨settingsMinutes, intervalAt t.1 (settingsMinutes * 60)⟩, true)
  else
    (t.1, ⟨st.currentIntervalMinutes, t.2⟩, false)

/-- The upload loop's state: just its timer, built once. -/
structure UploadLoopState where
  timer : TokioInterval
  deriving Repr, DecidableEq

/-- Timer initialization of `periodic_upload` (`lib.rs:806`):
`time::interval(3600s)` at time `now`, never touched again. -/
def periodicUploadInit (now : Nat) : UploadLoopState :=
  ⟨intervalAt now 3600⟩

/-- One iteration of `periodic_upload`'s timing (`lib.rs:808-824`): await
the hourly tick, read `settings.upload_interval` (hours) under the
settings lock — a poisoned lock skips the iteration via `continue` — then
request `time::sleep(upload_interval * 3600)` before uploading.  Returns
the time the tick completed, the state with its timer advanced on the
fixed hourly schedule (never rebuilt), and the requested sleep in seconds
(`none` when the iteration was skipped). -/
def periodicUploadIter (now : Nat) (st : UploadLoopState)
    (settingsLock : LockResult Settings) :
    Nat × UploadLoopState × Option Nat :=
  let t := tickAt now st.timer
  match settingsLock with
  | .poisoned _ => (t.1, ⟨t.2⟩, none)
  | .ok s => (t.1, ⟨t.2⟩, some (s.uploadInterval * 3600))

/-! ### Lock-failure discipline of the periodic loops
(`lib.rs:885-899`, `lib.rs:811-818`, `lib.rs:916-921`) -/

/-- How one loop iteration reacts to the outcome of a lock acquisition:
it proceeds with the guarded value, skips just this iteration
(`continue`), or panics the task (`unwrap()` on a poisoned lock). -/
inductive LoopIterOutcome (α : Type) where
  | proceed (a : α)
  | skipIteration
  | panicked
  deriving Repr, DecidableEq

/-- `periodic_upload`'s settings read (`lib.rs:812-818`):
`match settings.lock() { Ok(..) => .., Err(e) => { eprintln!(..); continue } }`
— a poisoned settings lock skips that single iteration. -/
def periodicUploadReadInterval (lk : LockResult Settings) :
    LoopIterOutcome Nat :=
  match lk with
  | .ok s => .proceed s.uploadInterval
  | .poisoned _ => .skipIteration

/-- `periodic_scan`'s settings reads (`lib.rs:886` and `lib.rs:897`):
`settings.lock().unwrap()` — a poisoned settings lock panics the scan
task. -/
def periodicScanReadInterval (lk : LockResult Settings) :
    LoopIterOutcome Nat :=
  match lk with
  | .ok s => .proceed s.scanIntervalMinutes
  | .poisoned _ => .panicked

/-- `periodic_scan`'s games-lock acquisition (`lib.rs:916-921`):
`match games.lock() { Ok(lock) => .., Err(e) => { eprintln!(..); continue } }`
— a poisoned registry lock skips that single iteration. -/
def periodicScanLockGames (lk : LockResult (List (String × GameInfo))) :
    LoopIterOutcome (List (String × GameInfo)) :=
  match lk with
  | .ok m => .proceed m
  | .poisoned _ => .skipIteration

/-! ### The `clear_uploaded_manifests` command (`lib.rs:363-383`) -/

/-- The engine's whole shared state: registry, metadata cache, settings,
and the dedup set with its persisted file. -/
structure AppState where
  games : List (String × GameInfo)
  metadataCache : List (String × GameMetadata)
  settings : Settings
  dedup : DedupState
  deriving Repr

/-- `clear_uploaded_manifests` (`lib.rs:363-383`): under the dedup-set lock
(a poisoned lock returns an error and changes nothing), clear the set and
persist the now-empty set; no other shared state is touched. -/
def clear_uploaded_manifests (lk : LockResult Unit) (st : AppState) :
    Except String Unit × AppState :=
  match lk with
  | .poisoned e =>
    (.error ("Failed to lock uploaded manifests: " ++ e), st)
  | .ok _ =>
    (.ok (),
      { st with dedup := ⟨[], save_uploaded_manifests_to_file []⟩ })

/-! ### Helper lemmas about the upload pipeline -/

/-- Inserting a hash makes the set contain it. -/
theorem mem_hashSetInsert_self (s : List String) (h : String) :
    h ∈ hashSetInsert s h := by
  by_cases hc : h ∈ s
  · simp [hashSetInsert, hc]
  · simp [hashSetInsert, hc]

/-- Any `Ok` result whose status is `uploaded` or `already_uploaded` leaves
the extracted hash in the resulting dedup set. -/
theorem upload_ok_status_mem (env : UploadEnv) (st : DedupState)
    (h : String) (u : UploadStatus)
    (h4 : env.manifestHashField = some h)
    (hr : (upload_manifest_internal env st).result = .ok u)
    (hs : u.status = "uploaded" ∨ u.status = "already_uploaded") :
    h ∈ (upload_manifest_internal env st).state.uploadedSet := by
  obtain ⟨ir, mr, ip, mh, lk, sr⟩ := env
  simp only at h4
  subst h4
  cases ir with
  | error e => simp [upload_manifest_internal] at hr
  | ok _ =>
  cases mr with
  | error e => simp [upload_manifest_internal] at hr
  | ok _ =>
  cases ip with
  | error e => simp [upload_manifest_internal] at hr
  | ok _ =>
  cases lk with
  | poisoned e => simp [upload_manifest_internal] at hr
  | ok _ =>
  by_cases hc : h ∈ st.uploadedSet
  · simp [upload_manifest_internal, hashSetContains, hc]
  · cases sr with
    | error e => simp [upload_manifest_internal, hashSetContains, hc] at hr
    | ok resp =>
      by_cases hok : resp.isSuccess = true
      · simp [upload_manifest_internal, hashSetContains, hc, hok,
          mem_hashSetInsert_self]
      · have hok' : resp.isSuccess = false := by simpa using hok
        by_cases hdup : strContainsSub resp.body dupContentPhrase = true
        · simp [upload_manifest_internal, hashSetContains, hc, hok', hdup,
            mem_hashSetInsert_self]
        · have hdup' : strContainsSub resp.body dupContentPhrase = false := by
            simpa using hdup
          simp [upload_manifest_internal, hashSetContains, hc, hok',
            hdup'] at hr
          rcases hs with hs | hs <;> rw [← hr] at hs <;> simp at hs

/-! ### C1: classification of a non-2xx upload response -/

/-- C1.  For an upload whose content hash is not yet in the dedup set and
whose HTTP response is non-2xx: a body containing the exact
duplicate-content phrase yields status `already_uploaded`, inserts the hash
and persists the grown set; a body without the phrase yields status
`failed` carrying the raw body as message and leaves the dedup state
(set and file) untouched. -/
theorem upload_response_classification
    (env : UploadEnv) (st : DedupState) (h : String) (resp : HttpResponse)
    (h1 : env.itemRead = .ok ()) (h2 : env.manifestRead = .ok ())
    (h3 : env.itemParse = .ok ()) (h4 : env.manifestHashField = some h)
    (h5 : env.uploadedLock = .ok ())
    (hnotin : h ∉ st.uploadedSet)
    (hsend : env.sendResult = .ok resp) (hfail : resp.isSuccess = false) :
    (strContainsSub resp.body dupContentPhrase = true →
      upload_manifest_internal env st =
        ⟨.ok ⟨"already_uploaded",
            some "Manifest with identical content already exists", some h⟩,
          ⟨h :: st.uploadedSet,
            some (serializeStringSet (h :: st.uploadedSet))⟩, true⟩)
    ∧ (strContainsSub resp.body dupContentPhrase = false →
      upload_manifest_internal env st =
        ⟨.ok ⟨"failed", some resp.body, some h⟩, st, true⟩) := by
  obtain ⟨ir, mr, ip, mh, lk, sr⟩ := env
  simp only at h1 h2 h3 h4 h5 hsend
  subst h1 h2 h3 h4 h5 hsend
  constructor <;> intro hdup <;>
    simp [upload_manifest_internal, hashSetContains, hashSetInsert,
      save_uploaded_manifests_to_file, hnotin, hfail, hdup]

/-- Concrete instance of C1: a record with hash `"HASH1"`, an empty dedup
set, and the two response bodies. -/
theorem upload_response_classification_witness :
    (upload_manifest_internal
        ⟨.ok (), .ok (), .ok (), some "HASH1", .ok (),
          .ok ⟨false, dupContentPhrase⟩⟩ ⟨[], none⟩ =
      ⟨.ok ⟨"already_uploaded",
          some "Manifest with identical content already exists",
          some "HASH1"⟩,
        ⟨["HASH1"], some (serializeStringSet ["HASH1"])⟩, true⟩)
    ∧ (upload_manifest_internal
        ⟨.ok (), .ok (), .ok (), some "HASH1", .ok (),
          .ok ⟨false, "internal server error"⟩⟩ ⟨[], none⟩ =
      ⟨.ok ⟨"failed", some "internal server error", some "HASH1"⟩,
        ⟨[], none⟩, true⟩) := by
  constructor
  · exact (upload_response_classification
      ⟨.ok (), .ok (), .ok (), some "HASH1", .ok (),
        .ok ⟨false, dupContentPhrase⟩⟩ ⟨[], none⟩ "HASH1"
      ⟨false, dupContentPhrase⟩ rfl rfl rfl rfl rfl (by decide) rfl rfl).1
      (by decide)
  · exact (upload_response_classification
      ⟨.ok (), .ok (), .ok (), some "HASH1", .ok (),
        .ok ⟨false, "internal server error"⟩⟩ ⟨[], none⟩ "HASH1"
      ⟨false, "internal server error"⟩ rfl rfl rfl rfl rfl (by decide)
      rfl rfl).2 (by decide)

/-! ### C2: dedup short-circuit and idempotence -/

/-- C2.  A record whose content hash is already in the dedup set at check
time returns `already_uploaded` with no network call and an unchanged dedup
state; consequently, once an upload of a hash ended `uploaded` or
`already_uploaded`, a second upload extracting the same hash issues no
network call. -/
theorem upload_dedup_idempotent
    (env env2 : UploadEnv) (st : DedupState) (h : String) (u : UploadStatus)
    (h1 : env.itemRead = .ok ()) (h2 : env.manifestRead = .ok ())
    (h3 : env.itemParse = .ok ()) (h4 : env.manifestHashField = some h)
    (h5 : env.uploadedLock = .ok ()) :
    (h ∈ st.uploadedSet →
      upload_manifest_internal env st =
        ⟨.ok ⟨"already_uploaded", some "Manifest already uploaded", some h⟩,
          st, false⟩)
    ∧ ((upload_manifest_internal env st).result = .ok u →
      (u.status = "uploaded" ∨ u.status = "already_uploaded") →
      env2.itemRead = .ok () → env2.manifestRead = .ok () →
      env2.itemParse = .ok () → env2.manifestHashField = some h →
      env2.uploadedLock = .ok () →
      (upload_manifest_internal env2
        (upload_manifest_internal env st).state).networkCalled = false) := by
  constructor
  · intro hc
    obtain ⟨ir, mr, ip, mh, lk, sr⟩ := env
    simp only at h1 h2 h3 h4 h5
    subst h1 h2 h3 h4 h5
    simp [upload_manifest_internal, hashSetContains, hc]
  · intro hr hs g1 g2 g3 g4 g5
    have hmem := upload_ok_status_mem _ st h u h4 hr hs
    generalize hg : (upload_manifest_internal env st).state = st2 at hmem ⊢
    obtain ⟨ir2, mr2, ip2, mh2, lk2, sr2⟩ := env2
    simp only at g1 g2 g3 g4 g5
    subst g1 g2 g3 g4 g5
    simp [upload_manifest_internal, hashSetContains, hmem]

/-- Concrete instance of C2: hash `"HASH1"` already in the set
short-circuits; after a successful upload of `"HASH2"`, re-uploading
`"HASH2"` makes no network call. -/
theorem upload_dedup_idempotent_witness :
    (upload_manifest_internal
        ⟨.ok (), .ok (), .ok (), some "HASH1", .ok (),
          .error "no network"⟩ ⟨["HASH1"], none⟩ =
      ⟨.ok ⟨"already_uploaded", some "Manifest already uploaded",
          some "HASH1"⟩, ⟨["HASH1"], none⟩, false⟩)
    ∧ ((upload_manifest_internal
        ⟨.ok (), .ok (), .ok (), some "HASH2", .ok (),
          .error "no network"⟩
        (upload_manifest_internal
          ⟨.ok (), .ok (), .ok (), some "HASH2", .ok (),
            .ok ⟨true, "ok"⟩⟩ ⟨[], none⟩).state).networkCalled = false) := by
  constructor
  · exact (upload_dedup_idempotent
      ⟨.ok (), .ok (), .ok (), some "HASH1", .ok (), .error "no network"⟩
      ⟨.ok (), .ok (), .ok (), some "HASH1", .ok (), .error "no network"⟩
      ⟨["HASH1"], none⟩ "HASH1"
      ⟨"uploaded", none, none⟩ rfl rfl rfl rfl rfl).1 (by decide)
  · exact (upload_dedup_idempotent
      ⟨.ok (), .ok (), .ok (), some "HASH2", .ok (), .ok ⟨true, "ok"⟩⟩
      ⟨.ok (), .ok (), .ok (), some "HASH2", .ok (), .error "no network"⟩
      ⟨[], none⟩ "HASH2" ⟨"uploaded", some "ok", some "HASH2"⟩
      rfl rfl rfl rfl rfl).2 (by simp [upload_manifest_internal,
        hashSetContains]) (Or.inl rfl) rfl rfl rfl rfl rfl

/-! ### C3: atomic registry replacement -/

/-- Executing a concatenation of micro-operation sequences composes. -/
theorem regExec_append (l1 l2 : List RegStep) (st : RegistryState) :
    regExec st (l1 ++ l2) = regExec (regExec st l1) l2 := by
  induction l1 generalizing st with
  | nil => rfl
  | cons s rest ih => simp [regExec, ih]

/-- `clearMap` and `insertRec` micro-operations never change the lock
flag. -/
theorem regExec_locked_of_mid (l : List RegStep)
    (hmid : ∀ s ∈ l, s = RegStep.clearMap ∨ ∃ g, s = RegStep.insertRec g)
    (st : RegistryState) : (regExec st l).locked = st.locked := by
  induction l generalizing st with
  | nil => rfl
  | cons s rest ih =>
    have hs := hmid s (List.mem_cons_self ..)
    have hrest : ∀ x ∈ rest,
        x = RegStep.clearMap ∨ ∃ g, x = RegStep.insertRec g :=
      fun x hx => hmid x (List.mem_cons_of_mem _ hx)
    rw [regExec, ih hrest]
    rcases hs with hs | ⟨g, hs⟩ <;> subst hs <;> rfl

/-- Running the insert micro-operations folds the records into the map. -/
theorem regExec_inserts (gs : List GameInfo) (st : RegistryState) :
    regExec st (gs.map RegStep.insertRec) =
      ⟨gs.foldl (fun m g => registryInsert m g.appName g) st.registry,
        st.locked⟩ := by
  induction gs generalizing st with
  | nil => rfl
  | cons g rest ih => simp [regExec, regExecStep, ih]

/-- The full replacement program ends with the freshly built map and the
lock released. -/
theorem regExec_full (games : List GameInfo) (init : RegistryState) :
    regExec init (registryUpdateProgram games) =
      ⟨buildRegistry games, false⟩ := by
  show regExec init
    (.acquire :: .clearMap :: (games.map .insertRec ++ [.release])) = _
  rw [regExec, regExec, regExec_append, regExec_inserts]
  rfl

/-- C3.  The post-scan registry replacement runs entirely inside one lock
acquisition: every strict intermediate point of the replacement program
holds the lock, so an observer (who can only read with the lock free) sees
either the pre-scan map or the fully rebuilt map keyed by app name, never a
partially built one; and the completed program leaves exactly the rebuilt
map with the lock released. -/
theorem registry_atomic_replace (games : List GameInfo)
    (init : RegistryState) (n : Nat) :
    ((regExec init ((registryUpdateProgram games).take n)).locked = false →
      (regExec init ((registryUpdateProgram games).take n)).registry =
          init.registry ∨
        (regExec init ((registryUpdateProgram games).take n)).registry =
          buildRegistry games)
    ∧ regExec init (registryUpdateProgram games) =
        ⟨buildRegistry games, false⟩ := by
  refine ⟨?_, regExec_full games init⟩
  intro hfree
  rcases Nat.eq_zero_or_pos n with hn0 | hnpos
  · subst hn0
    exact Or.inl rfl
  rcases Nat.lt_or_ge n (registryUpdateProgram games).length with hlt | hge
  · -- a strict prefix past the acquire: the lock is held, contradiction
    exfalso
    obtain ⟨m, rfl⟩ : ∃ m, n = m + 1 :=
      ⟨n - 1, (Nat.succ_pred_eq_of_pos hnpos).symm⟩
    have htake : (registryUpdateProgram games).take (m + 1) =
        .acquire :: ((RegStep.clearMap :: games.map .insertRec)
          ++ [RegStep.release]).take m := by
      simp [registryUpdateProgram]
    have hm : m ≤ (RegStep.clearMap :: games.map .insertRec).length := by
      have := hlt
      simp [registryUpdateProgram] at this
      simp
      omega
    have htake2 : ((RegStep.clearMap :: games.map .insertRec)
          ++ [RegStep.release]).take m =
        (RegStep.clearMap :: games.map .insertRec).take m :=
      List.take_append_of_le_length hm
    have hmid : ∀ s ∈ (RegStep.clearMap :: games.map .insertRec).take m,
        s = RegStep.clearMap ∨ ∃ g, s = RegStep.insertRec g := by
      intro s hsmem
      have hs := List.take_subset _ _ hsmem
      rcases List.mem_cons.mp hs with hs | hs
      · exact Or.inl hs
      · obtain ⟨g, _, rfl⟩ := List.mem_map.mp hs
        exact Or.inr ⟨g, rfl⟩
    rw [htake, htake2, regExec,
      regExec_locked_of_mid _ hmid] at hfree
    simp [regExecStep] at hfree
  · have : (registryUpdateProgram games).take n = registryUpdateProgram games :=
      List.take_of_length_le hge
    rw [this, regExec_full]
    exact Or.inr rfl

/-- A sample record used by several concrete instances below. -/
def witnessGameA : GameInfo :=
  ⟨"Game A", "a", "C:/Games/A", 10, "1.0", "ns", "catA", "guidA", "HA", none⟩

/-- A second sample record. -/
def witnessGameB : GameInfo :=
  ⟨"Game B", "b", "C:/Games/B", 20, "2.0", "ns", "catB", "guidB", "HB", none⟩

/-- Concrete instance of C3: replacing a one-record registry with two
records, observed after the whole program ran. -/
theorem registry_atomic_replace_witness :
    ((regExec ⟨[("old", witnessGameA)], false⟩
        ((registryUpdateProgram [witnessGameA, witnessGameB]).take 5)).registry =
        [("old", witnessGameA)] ∨
      (regExec ⟨[("old", witnessGameA)], false⟩
        ((registryUpdateProgram [witnessGameA, witnessGameB]).take 5)).registry =
        buildRegistry [witnessGameA, witnessGameB])
    ∧ regExec ⟨[("old", witnessGameA)], false⟩
        (registryUpdateProgram [witnessGameA, witnessGameB]) =
        ⟨buildRegistry [witnessGameA, witnessGameB], false⟩ := by
  have h := registry_atomic_replace [witnessGameA, witnessGameB]
    ⟨[("old", witnessGameA)], false⟩ 5
  exact ⟨h.1 (by simp [registryUpdateProgram, regExec, regExecStep]), h.2⟩

/-! ### C4: the batch never short-circuits -/

/-- The batch produces one status per input record. -/
theorem uploadAllFrom_length (envOf : GameInfo → UploadEnv)
    (gs : List GameInfo) (st : DedupState) :
    (uploadAllFrom envOf gs st).1.length = gs.length := by
  induction gs generalizing st with
  | nil => rfl
  | cons g rest ih => simp [uploadAllFrom, ih]

/-- C4.  `uploadAll` on a snapshot of `N` records returns exactly `N`
statuses, in input order: the `i`-th status is the converted result of
uploading the `i`-th record against the dedup state left by the first `i`
records, and a per-record `Err` is converted into a `failed` status
carrying the error text — no individual failure stops the batch. -/
theorem upload_all_statuses (envOf : GameInfo → UploadEnv)
    (gs : List GameInfo) (st : DedupState) :
    (uploadAllFrom envOf gs st).1.length = gs.length
    ∧ (∀ i (hi : i < gs.length),
      (uploadAllFrom envOf gs st).1[i]? =
        some (statusOfOutcome
          (upload_manifest_internal (envOf (gs.get ⟨i, hi⟩))
            (uploadAllFrom envOf (gs.take i) st).2).result))
    ∧ (∀ e, statusOfOutcome (.error e) = ⟨"failed", some e, none⟩) := by
  refine ⟨uploadAllFrom_length envOf gs st, ?_, fun e => rfl⟩
  intro i hi
  induction gs generalizing st i with
  | nil => simp at hi
  | cons g rest ih =>
    cases i with
    | zero => simp [uploadAllFrom]
    | succ j =>
      have hj : j < rest.length := by simpa using hi
      simpa [uploadAllFrom] using
        ih ((upload_manifest_internal (envOf g) st).state) j hj

/-- The per-record environments of the concrete C4 instance: record `a`'s
binary manifest blob is unreadable, every other record uploads fine. -/
def witnessEnvOf (g : GameInfo) : UploadEnv :=
  if g.appName = "a" then
    ⟨.ok (), .error "missing blob", .ok (), some g.manifestHash, .ok (),
      .ok ⟨true, "ok"⟩⟩
  else
    ⟨.ok (), .ok (), .ok (), some g.manifestHash, .ok (), .ok ⟨true, "ok"⟩⟩

/-- Concrete instance of C4: two records where the first has a missing
manifest blob give two statuses — a `failed` carrying the IO error text,
then the second record's own status. -/
theorem upload_all_statuses_witness :
    (uploadAllFrom witnessEnvOf [witnessGameA, witnessGameB]
        ⟨[], none⟩).1.length = 2
    ∧ (uploadAllFrom witnessEnvOf [witnessGameA, witnessGameB]
        ⟨[], none⟩).1[0]? =
      some ⟨"failed",
        some "Failed to read .manifest file: missing blob", none⟩ := by
  have h := upload_all_statuses witnessEnvOf [witnessGameA, witnessGameB]
    ⟨[], none⟩
  refine ⟨h.1, ?_⟩
  rw [h.2.1 0 (by decide)]
  simp [witnessEnvOf, witnessGameA, upload_manifest_internal,
    statusOfOutcome, uploadAllFrom]

/-! ### C5 and C9: scanner error classification -/

/-- A directory-read failure message is never the NotFound message. -/
theorem failedDirMsg_ne (e : String) :
    "Failed to read manifests directory: " ++ e ≠ manifestsDirNotFoundMsg := by
  intro h
  have h2 := congrArg String.data h
  simp [String.data_append, manifestsDirNotFoundMsg] at h2

/-- A directory-entry failure message is never the NotFound message. -/
theorem failedEntryMsg_ne (e : String) :
    "Failed to read directory entry: " ++ e ≠ manifestsDirNotFoundMsg := by
  intro h
  have h2 := congrArg String.data h
  simp [String.data_append, manifestsDirNotFoundMsg] at h2

/-- The entry loop never produces the NotFound error. -/
theorem scanEntries_ne_notfound (l : List (Except String DirEntry)) :
    scanEntries l ≠ .error manifestsDirNotFoundMsg := by
  induction l with
  | nil => simp [scanEntries]
  | cons x rest ih =>
    cases x with
    | error e =>
      simp only [scanEntries]
      intro h
      exact failedEntryMsg_ne e (Except.error.inj h)
    | ok de =>
      simp only [scanEntries]
      cases hre : scanEntries rest with
      | error e2 =>
        intro h
        exact ih (by rw [hre, Except.error.inj h])
      | ok p =>
        obtain ⟨gs, sk⟩ := p
        cases hext : de.extension == some "item"
        · simp [hext]
        · cases hpr : de.parseResult <;> simp [hext, hpr]

/-- With every directory entry readable, the entry loop succeeds whatever
the per-file parse results are. -/
theorem scanEntries_allok_isOk (l : List (Except String DirEntry))
    (hok : ∀ x ∈ l, ∃ de, x = .ok de) :
    ∃ p, scanEntries l = .ok p := by
  induction l with
  | nil => exact ⟨([], 0), rfl⟩
  | cons x rest ih =>
    obtain ⟨de, rfl⟩ := hok x (List.mem_cons_self ..)
    obtain ⟨⟨gs, sk⟩, hp⟩ :=
      ih fun y hy => hok y (List.mem_cons_of_mem _ hy)
    simp only [scanEntries, hp]
    cases hext : de.extension == some "item"
    · exact ⟨(gs, sk), by simp⟩
    · cases hpr : de.parseResult with
      | error e => exact ⟨(gs, sk + 1), by simp [hpr]⟩
      | ok g => exact ⟨(g :: gs, sk), by simp [hpr]⟩

/-- A readable directory with no descriptor files scans to the empty list
with no skips. -/
theorem scanEntries_no_items (l : List (Except String DirEntry))
    (hok : ∀ x ∈ l, ∃ de, x = .ok de ∧ de.extension ≠ some "item") :
    scanEntries l = .ok ([], 0) := by
  induction l with
  | nil => rfl
  | cons x rest ih =>
    obtain ⟨de, rfl, hext⟩ := hok x (List.mem_cons_self ..)
    have hrest := ih fun y hy => hok y (List.mem_cons_of_mem _ hy)
    simp only [scanEntries, hrest]
    simp [hext]

/-- C5.  `scan` fails with the NotFound error exactly when the platform
manifest directory is absent; a directory that exists, whose entries are
all readable but none of which is a descriptor file, is success with an
empty list; and when the directory exists and its entries are readable,
per-file read/parse failures never abort the scan — it succeeds whatever
each descriptor's parse outcome is. -/
theorem scan_error_classification (env : ScanEnv)
    (entries : List (Except String DirEntry)) :
    ((scan_epic_games_with_metadata env = .error manifestsDirNotFoundMsg) ↔
      env.dirExists = false)
    ∧ (env.dirExists = true → env.readDirResult = .ok entries →
        (∀ x ∈ entries, ∃ de, x = .ok de) →
        ∃ p, scan_epic_games_with_metadata env = .ok p)
    ∧ (env.dirExists = true → env.readDirResult = .ok entries →
        (∀ x ∈ entries, ∃ de, x = .ok de ∧ de.extension ≠ some "item") →
        scan_epic_games_with_metadata env = .ok ([], 0)) := by
  refine ⟨⟨?_, ?_⟩, ?_, ?_⟩
  · intro h
    by_contra hd
    have hd' : env.dirExists = true := by
      cases hde : env.dirExists
      · exact absurd hde hd
      · rfl
    rw [scan_epic_games_with_metadata, hd'] at h
    simp only [if_true] at h
    cases hrd : env.readDirResult with
    | error e =>
      rw [hrd] at h
      exact failedDirMsg_ne e (Except.error.inj h)
    | ok es =>
      rw [hrd] at h
      exact scanEntries_ne_notfound es h
  · intro h
    simp [scan_epic_games_with_metadata, h]
  · intro hd hrd hok
    obtain ⟨p, hp⟩ := scanEntries_allok_isOk entries hok
    exact ⟨p, by simp [scan_epic_games_with_metadata, hd, hrd, hp]⟩
  · intro hd hrd hok
    simp [scan_epic_games_with_metadata, hd, hrd,
      scanEntries_no_items entries hok]

/-- Concrete instance of C5: an absent directory yields exactly the
NotFound error, and an existing directory holding one readable non-`.item`
file scans to the empty list. -/
theorem scan_error_classification_witness :
    scan_epic_games_with_metadata ⟨false, .ok []⟩ =
      .error manifestsDirNotFoundMsg
    ∧ scan_epic_games_with_metadata
        ⟨true, .ok [.ok ⟨"readme.txt", some "txt", .error "not json"⟩]⟩ =
      .ok ([], 0) := by
  constructor
  · exact (scan_error_classification ⟨false, .ok []⟩ []).1.mpr rfl
  · exact (scan_error_classification
      ⟨true, .ok [.ok ⟨"readme.txt", some "txt", .error "not json"⟩]⟩
      [.ok ⟨"readme.txt", some "txt", .error "not json"⟩]).2.2 rfl rfl
      (by intro x hx
          simp at hx
          exact ⟨_, hx, by decide⟩)

/-- A descriptor entry whose JSON fails to parse. -/
def witnessBadEntry : DirEntry :=
  ⟨"bad.item", some "item",
    .error "Failed to parse JSON: expected value at line 1"⟩

/-- C9.  Scanning a directory of three descriptor files of which one has
unparseable JSON succeeds with exactly the two parsed records and one
logged skip. -/
theorem scan_three_one_unparseable :
    scan_epic_games_with_metadata
      ⟨true, .ok [.ok ⟨"a.item", some "item", .ok witnessGameA⟩,
        .ok witnessBadEntry,
        .ok ⟨"b.item", some "item", .ok witnessGameB⟩]⟩ =
      .ok ([witnessGameA, witnessGameB], 1) := rfl

/-! ### C6: scheduler interval handling -/

/-- C6 counterexample.  Two concrete refutations of the claimed common
pattern.  Upload loop: after an iteration observing an upload interval of
2 (hours — the unit of `upload_interval`, not minutes), its timer still
has the fixed one-hour period, not the configured `2 * 3600` seconds — it
was never rebuilt.  Scan loop: lowering the interval from 60 minutes to 1
does rebuild the timer, but the fresh `time::interval` is due immediately,
so the very next tick completes at the rebuild instant itself (time 3600
here) — a back-to-back duplicate fire, not a tick at the new period. -/
theorem scheduler_pattern_counterexample :
    (periodicUploadIter 3600 (periodicUploadInit 0)
        (.ok ⟨3, 0, ["Live", "Production"], 2, 1⟩)).2.1.timer.period = 3600
    ∧ (periodicUploadIter 3600 (periodicUploadInit 0)
        (.ok ⟨3, 0, ["Live", "Production"], 2, 1⟩)).2.1.timer.period ≠
      2 * 3600
    ∧ periodicScanIter 3600 ⟨60, ⟨3600, 3600⟩⟩ 1 =
        (3600, ⟨1, ⟨3600, 60⟩⟩, true)
    ∧ (periodicScanIter 3600 ⟨1, ⟨3600, 60⟩⟩ 1).1 = 3600 := by
  refine ⟨by decide, by decide, by decide, by decide⟩

/-- C6 (amended).  The two loops do not follow one pattern, and a rebuild
is not clean.  The scan loop re-reads its interval on every tick and, when
it changed, replaces its timer with a fresh `time::interval` at the new
value, built at the fire instant and hence due immediately: an already-due
timer's tick completes at once, so the tick after a rebuild is a duplicate
fire at the rebuild instant, and only the schedule after it follows the
new period; an unchanged interval leaves the timer on its old schedule.
The upload loop never rebuilds its timer: it keeps the fixed 3600-second
interval built at startup, re-reads `upload_interval` (hours, not minutes)
each iteration, and requests a sleep of `upload_interval * 3600` seconds
before uploading; its hourly tick, once already due, also adds no wait, so
the cycle cadence is governed by that sleep. -/
theorem scheduler_interval_patterns (now now2 : Nat) (st : ScanLoopState)
    (m : Nat) (ust : UploadLoopState) (s : Settings)
    (hch : m ≠ st.currentIntervalMinutes)
    (hdue : ust.timer.deadline ≤ now2) :
    periodicScanIter now st m =
      (max now st.timer.deadline,
        ⟨m, ⟨max now st.timer.deadline, m * 60⟩⟩, true)
    ∧ (∀ m2, m2 = st.currentIntervalMinutes →
        periodicScanIter now st m2 =
          (max now st.timer.deadline,
            ⟨st.currentIntervalMinutes,
              ⟨st.timer.deadline + st.timer.period, st.timer.period⟩⟩,
            false))
    ∧ (∀ (st2 : ScanLoopState) (now3 m3 : Nat),
        st2.timer.deadline ≤ now3 →
        (periodicScanIter now3 st2 m3).1 = now3)
    ∧ (periodicUploadIter now2 ust (.ok s)).2.1.timer.period =
        ust.timer.period
    ∧ (periodicUploadIter now2 ust (.ok s)).2.2 =
        some (s.uploadInterval * 3600)
    ∧ (periodicUploadIter now2 ust (.ok s)).1 = now2 := by
  refine ⟨?_, ?_, ?_, rfl, rfl, ?_⟩
  · simp [periodicScanIter, tickAt, intervalAt, hch]
  · intro m2 hm2
    simp [periodicScanIter, tickAt, hm2]
  · intro st2 now3 m3 hd
    unfold periodicScanIter
    split <;> simp [tickAt, Nat.max_eq_left hd]
  · simp [periodicUploadIter, tickAt, Nat.max_eq_left hdue]

/-- Concrete instance of the amended C6: a 60-to-1-minute change at time
3600 rebuilds the scan timer to a fresh 60-second interval due at 3600;
the following tick (still at time 3600) completes immediately; an upload
iteration at time 7200 on an hourly timer due at 7200 keeps the 3600-second
period, requests a 7200-second sleep for `upload_interval = 2` hours, and
its tick adds no wait. -/
theorem scheduler_interval_patterns_witness :
    periodicScanIter 3600 ⟨60, ⟨3600, 3600⟩⟩ 1 =
      (3600, ⟨1, ⟨3600, 60⟩⟩, true)
    ∧ (periodicScanIter 3600 ⟨1, ⟨3600, 60⟩⟩ 5).1 = 3600
    ∧ (periodicUploadIter 7200 ⟨⟨7200, 3600⟩⟩
        (.ok ⟨3, 0, ["Live", "Production"], 2, 1⟩)).2.1.timer.period = 3600
    ∧ (periodicUploadIter 7200 ⟨⟨7200, 3600⟩⟩
        (.ok ⟨3, 0, ["Live", "Production"], 2, 1⟩)).2.2 = some 7200
    ∧ (periodicUploadIter 7200 ⟨⟨7200, 3600⟩⟩
        (.ok ⟨3, 0, ["Live", "Production"], 2, 1⟩)).1 = 7200 := by
  have h := scheduler_interval_patterns 3600 7200 ⟨60, ⟨3600, 3600⟩⟩ 1
    ⟨⟨7200, 3600⟩⟩ ⟨3, 0, ["Live", "Production"], 2, 1⟩ (by decide)
    (by decide)
  refine ⟨by simpa using h.1,
    h.2.2.1 ⟨1, ⟨3600, 60⟩⟩ 3600 5 (by decide),
    by simpa using h.2.2.2.1,
    by simpa using h.2.2.2.2.1,
    by simpa using h.2.2.2.2.2⟩

/-! ### C7: reaction of each loop to a poisoned lock -/

/-- C7 (divergence).  `periodic_scan` reads the scan interval with
`settings.lock().unwrap()`, so a poisoned settings mutex panics the scan
task instead of failing only that iteration — unlike `periodic_upload`'s
settings read and `periodic_scan`'s own games-lock acquisition, which
convert the same poisoning into a skipped iteration. -/
theorem periodic_scan_settings_poison_panics :
    periodicScanReadInterval (.poisoned "poisoned lock: another task failed while holding the lock") =
      .panicked
    ∧ periodicUploadReadInterval (.poisoned "poisoned lock: another task failed while holding the lock") =
      .skipIteration
    ∧ periodicScanLockGames (.poisoned "poisoned lock: another task failed while holding the lock") =
      .skipIteration :=
  ⟨rfl, rfl, rfl⟩

/-! ### C8: dedup persistence round-trip -/

/-- Parsing back a serialized list of strings recovers it. -/
theorem parseStrings_map_str (s : List String) :
    parseStrings (s.map JsonVal.str) = some s := by
  induction s with
  | nil => rfl
  | cons a rest ih => simp [parseStrings, ih]

/-- Persisting the dedup set and loading it from storage round-trips. -/
theorem load_save_roundtrip (s : List String) :
    load_uploaded_manifests_from_file
      (save_uploaded_manifests_to_file s) = s := by
  simp [load_uploaded_manifests_from_file, save_uploaded_manifests_to_file,
    serializeStringSet, parseStringSet, parseStrings_map_str]

/-- C8.  A hash inserted into the dedup set, persisted, and reloaded from
storage is still in the set, so an upload that extracts that hash against
the reloaded set returns `already_uploaded` with no network call and the
dedup state unchanged. -/
theorem dedup_persistence_roundtrip (env : UploadEnv) (s : List String)
    (h : String)
    (h1 : env.itemRead = .ok ()) (h2 : env.manifestRead = .ok ())
    (h3 : env.itemParse = .ok ()) (h4 : env.manifestHashField = some h)
    (h5 : env.uploadedLock = .ok ()) :
    load_uploaded_manifests_from_file
        (save_uploaded_manifests_to_file (hashSetInsert s h)) =
      hashSetInsert s h
    ∧ h ∈ hashSetInsert s h
    ∧ upload_manifest_internal env
        ⟨load_uploaded_manifests_from_file
            (save_uploaded_manifests_to_file (hashSetInsert s h)),
          save_uploaded_manifests_to_file (hashSetInsert s h)⟩ =
      ⟨.ok ⟨"already_uploaded", some "Manifest already uploaded", some h⟩,
        ⟨hashSetInsert s h,
          save_uploaded_manifests_to_file (hashSetInsert s h)⟩, false⟩ := by
  refine ⟨load_save_roundtrip _, mem_hashSetInsert_self s h, ?_⟩
  obtain ⟨ir, mr, ip, mh, lk, sr⟩ := env
  simp only at h1 h2 h3 h4 h5
  subst h1 h2 h3 h4 h5
  rw [load_save_roundtrip]
  simp [upload_manifest_internal, hashSetContains, mem_hashSetInsert_self]

/-- Concrete instance of C8 with hash `"HASH1"` inserted into the empty
set; the environment has no network available, which the short-circuit
never touches. -/
theorem dedup_persistence_roundtrip_witness :
    load_uploaded_manifests_from_file
        (save_uploaded_manifests_to_file (hashSetInsert [] "HASH1")) =
      hashSetInsert [] "HASH1"
    ∧ upload_manifest_internal
        ⟨.ok (), .ok (), .ok (), some "HASH1", .ok (), .error "no network"⟩
        ⟨load_uploaded_manifests_from_file
            (save_uploaded_manifests_to_file (hashSetInsert [] "HASH1")),
          save_uploaded_manifests_to_file (hashSetInsert [] "HASH1")⟩ =
      ⟨.ok ⟨"already_uploaded", some "Manifest already uploaded",
          some "HASH1"⟩,
        ⟨hashSetInsert [] "HASH1",
          save_uploaded_manifests_to_file (hashSetInsert [] "HASH1")⟩,
        false⟩ := by
  have hw := dedup_persistence_roundtrip
    ⟨.ok (), .ok (), .ok (), some "HASH1", .ok (), .error "no network"⟩
    [] "HASH1" rfl rfl rfl rfl rfl
  exact ⟨hw.1, hw.2.2⟩

/-! ### C10: clearing the dedup set -/

/-- C10.  With the dedup lock acquirable, `clear_uploaded_manifests`
returns `Ok`, empties the set, persists the empty set, and leaves the
registry, metadata cache and settings untouched; afterwards no hash is
recognized as already uploaded, so any upload whose reads, parse and lock
succeed proceeds to the network call. -/
theorem clear_uploaded_manifests_resets (st : AppState) (env : UploadEnv)
    (h : String)
    (h1 : env.itemRead = .ok ()) (h2 : env.manifestRead = .ok ())
    (h3 : env.itemParse = .ok ()) (h4 : env.manifestHashField = some h)
    (h5 : env.uploadedLock = .ok ()) :
    (clear_uploaded_manifests (.ok ()) st).1 = .ok ()
    ∧ (clear_uploaded_manifests (.ok ()) st).2.dedup.uploadedSet = []
    ∧ (clear_uploaded_manifests (.ok ()) st).2.dedup.file =
        some (serializeStringSet [])
    ∧ (clear_uploaded_manifests (.ok ()) st).2.games = st.games
    ∧ (clear_uploaded_manifests (.ok ()) st).2.metadataCache =
        st.metadataCache
    ∧ (clear_uploaded_manifests (.ok ()) st).2.settings = st.settings
    ∧ (∀ h2, h2 ∉ (clear_uploaded_manifests (.ok ()) st).2.dedup.uploadedSet)
    ∧ (upload_manifest_internal env
        (clear_uploaded_manifests (.ok ()) st).2.dedup).networkCalled =
      true := by
  refine ⟨rfl, rfl, rfl, rfl, rfl, rfl, by simp [clear_uploaded_manifests], ?_⟩
  obtain ⟨ir, mr, ip, mh, lk, sr⟩ := env
  simp only at h1 h2 h3 h4 h5
  subst h1 h2 h3 h4 h5
  cases sr with
  | error e => simp [clear_uploaded_manifests, upload_manifest_internal,
      hashSetContains]
  | ok resp =>
    by_cases hok : resp.isSuccess = true
    · simp [clear_uploaded_manifests, upload_manifest_internal,
        hashSetContains, hok]
    · have hok' : resp.isSuccess = false := by simpa using hok
      by_cases hdup : strContainsSub resp.body dupContentPhrase = true
      · simp [clear_uploaded_manifests, upload_manifest_internal,
          hashSetContains, hok', hdup]
      · have hdup' : strContainsSub resp.body dupContentPhrase = false := by
          simpa using hdup
        simp [clear_uploaded_manifests, upload_manifest_internal,
          hashSetContains, hok', hdup']

/-- Concrete instance of C10 on a populated state. -/
theorem clear_uploaded_manifests_resets_witness :
    (clear_uploaded_manifests (.ok ())
        ⟨[("a", witnessGameA)], [], ⟨3, 0, ["Live"], 6, 1⟩,
          ⟨["HASH1"], none⟩⟩).1 = .ok ()
    ∧ (clear_uploaded_manifests (.ok ())
        ⟨[("a", witnessGameA)], [], ⟨3, 0, ["Live"], 6, 1⟩,
          ⟨["HASH1"], none⟩⟩).2.dedup.uploadedSet = []
    ∧ (upload_manifest_internal
        ⟨.ok (), .ok (), .ok (), some "HASH1", .ok (), .ok ⟨true, "ok"⟩⟩
        (clear_uploaded_manifests (.ok ())
          ⟨[("a", witnessGameA)], [], ⟨3, 0, ["Live"], 6, 1⟩,
            ⟨["HASH1"], none⟩⟩).2.dedup).networkCalled = true := by
  have hw := clear_uploaded_manifests_resets
    ⟨[("a", witnessGameA)], [], ⟨3, 0, ["Live"], 6, 1⟩, ⟨["HASH1"], none⟩⟩
    ⟨.ok (), .ok (), .ok (), some "HASH1", .ok (), .ok ⟨true, "ok"⟩⟩
    "HASH1" rfl rfl rfl rfl rfl
  exact ⟨hw.1, hw.2.1, hw.2.2.2.2.2.2.2⟩

end EGData
